import Mathlib

/-!  Formal model of the V2V simulation core: the interference-graph builder
(`interference_graph.cpp`), vehicle motion (`vehicule.cpp`) and the simulation
driver (`simulator.cpp`), with theorems checking the specification.  -/

namespace V2V

/-- Model of `std::unordered_map<int, std::unordered_set<int>>` (the adjacency
list and the transitive-closure map): a finite key set plus a lookup function,
with the invariant that looking up an absent key yields the empty set. -/
structure AdjMap where
  keys : Finset Int
  adj : Int → Finset Int
  absent : ∀ i, i ∉ keys → adj i = ∅

/-- The empty map (state after `clear()`). -/
def emptyAdjMap : AdjMap where
  keys := ∅
  adj := fun _ => ∅
  absent := fun _ _ => rfl

/-- The paired insertion `m_adjacencyList[a].insert(b); m_adjacencyList[b].insert(a)`
(`operator[]` creates the key when absent). -/
def addEdge (m : AdjMap) (a b : Int) : AdjMap where
  keys := insert a (insert b m.keys)
  adj := fun x =>
    if x = b then insert a (if x = a then insert b (m.adj x) else m.adj x)
    else (if x = a then insert b (m.adj x) else m.adj x)
  absent := by
    intro i hi
    simp only [Finset.mem_insert, not_or] at hi
    obtain ⟨ha, hb, hk⟩ := hi
    simp [ha, hb, m.absent i hk]

lemma mem_addEdge {m : AdjMap} {a b x y : Int} :
    y ∈ (addEdge m a b).adj x ↔ (x = a ∧ y = b) ∨ (x = b ∧ y = a) ∨ y ∈ m.adj x := by
  simp only [addEdge]
  split_ifs with h1 h2 h3 <;> simp_all [Finset.mem_insert]

/-- Symmetry of an adjacency map: `j ∈ adjacency[i] ⇔ i ∈ adjacency[j]`. -/
def Symm (m : AdjMap) : Prop := ∀ x y, y ∈ m.adj x ↔ x ∈ m.adj y

lemma Symm.addEdge {m : AdjMap} (h : Symm m) (a b : Int) : Symm (V2V.addEdge m a b) := by
  intro x y
  rw [mem_addEdge, mem_addEdge, h x y]
  tauto

lemma Symm.foldl {α : Type} {f : AdjMap → α → AdjMap}
    (hf : ∀ m a, Symm m → Symm (f m a)) :
    ∀ (l : List α) (m : AdjMap), Symm m → Symm (l.foldl f m) := by
  intro l
  induction l with
  | nil => exact fun m hm => hm
  | cons x xs ih => exact fun m hm => ih _ (hf m x hm)

/-! ### Breadth-first search (`InterferenceGraph::bfsReachable`) -/

/-- One adjacency hop: `b` is a direct neighbor of `a`. -/
def adjStep (g : AdjMap) (a b : Int) : Prop := b ∈ g.adj a

/-- All node ids that can ever appear during a BFS over `g`. -/
def bfsBase (g : AdjMap) : Finset Int := g.keys ∪ g.keys.biUnion g.adj

lemma adj_subset_bfsBase (g : AdjMap) (x : Int) : g.adj x ⊆ bfsBase g := by
  intro n hn
  by_cases hx : x ∈ g.keys
  · exact Finset.mem_union_right _ (Finset.mem_biUnion.mpr ⟨x, hx, hn⟩)
  · rw [g.absent x hx] at hn
    exact absurd hn (Finset.not_mem_empty n)

/-- The `while (!toVisit.empty())` loop of `bfsReachable`: pop the front of the
queue, look up its neighbors (an absent key contributes none, by `absent`),
and mark-and-enqueue every neighbor not yet visited. -/
def bfsLoop (g : AdjMap) (queue : List Int) (visited : Finset Int) : Finset Int :=
  match queue with
  | [] => visited
  | cur :: rest =>
    bfsLoop g (rest ++ ((g.adj cur).filter (fun n => n ∉ visited)).sort (· ≤ ·))
      (visited ∪ (g.adj cur).filter (fun n => n ∉ visited))
termination_by ((bfsBase g \ visited).card, queue.length)
decreasing_by
  rcases Finset.eq_empty_or_nonempty ((g.adj cur).filter (fun n => n ∉ visited)) with h | h
  · rw [h]
    simp only [Finset.union_empty, Finset.sort_empty, List.append_nil, List.length_cons]
    exact Prod.Lex.right _ (Nat.lt_succ_self _)
  · apply Prod.Lex.left
    obtain ⟨n, hn⟩ := h
    rw [Finset.mem_filter] at hn
    apply Finset.card_lt_card
    apply Finset.ssubset_iff_of_subset
      (Finset.sdiff_subset_sdiff (Finset.Subset.refl _) Finset.subset_union_left) |>.mpr
    refine ⟨n, Finset.mem_sdiff.mpr ⟨adj_subset_bfsBase g cur hn.1, hn.2⟩, ?_⟩
    intro hmem
    rw [Finset.mem_sdiff] at hmem
    exact hmem.2 (Finset.mem_union_right _ (Finset.mem_filter.mpr hn))

/-- Model of `bfsReachable(startId)`: BFS from `startId`, then
`visited.erase(startId)`. -/
def bfsReachable (g : AdjMap) (startId : Int) : Finset Int :=
  (bfsLoop g [startId] {startId}).erase startId

lemma bfsLoop_mono (g : AdjMap) :
    ∀ (queue : List Int) (visited : Finset Int), visited ⊆ bfsLoop g queue visited := by
  intro queue visited
  induction queue, visited using bfsLoop.induct g with
  | case1 visited => rw [bfsLoop]
  | case2 visited cur rest ih =>
    rw [bfsLoop]
    exact Finset.Subset.trans Finset.subset_union_left ih

lemma bfsLoop_sound (g : AdjMap) (start : Int) :
    ∀ (queue : List Int) (visited : Finset Int),
      (∀ x ∈ visited, Relation.ReflTransGen (adjStep g) start x) →
      (∀ x ∈ queue, x ∈ visited) →
      ∀ y ∈ bfsLoop g queue visited, Relation.ReflTransGen (adjStep g) start y := by
  intro queue visited
  induction queue, visited using bfsLoop.induct g with
  | case1 visited =>
    intro hvis _ y hy
    rw [bfsLoop] at hy
    exact hvis y hy
  | case2 visited cur rest ih =>
    intro hvis hq y hy
    rw [bfsLoop] at hy
    refine ih ?_ ?_ y hy
    · intro x hx
      rcases Finset.mem_union.mp hx with hx | hx
      · exact hvis x hx
      · rcases Finset.mem_filter.mp hx with ⟨hadj, _⟩
        exact Relation.ReflTransGen.tail (hvis cur (hq cur (List.mem_cons_self _ _))) hadj
    · intro x hx
      rcases List.mem_append.mp hx with hx | hx
      · exact Finset.mem_union_left _ (hq x (List.mem_cons_of_mem cur hx))
      · exact Finset.mem_union_right _ (Finset.mem_sort (α := Int) (· ≤ ·) |>.mp hx)

lemma bfsLoop_closed (g : AdjMap) :
    ∀ (queue : List Int) (visited : Finset Int),
      (∀ x ∈ visited, x ∉ queue → g.adj x ⊆ visited) →
      ∀ x ∈ bfsLoop g queue visited, g.adj x ⊆ bfsLoop g queue visited := by
  intro queue visited
  induction queue, visited using bfsLoop.induct g with
  | case1 visited =>
    intro hcl x hx
    rw [bfsLoop] at hx ⊢
    exact hcl x hx (List.not_mem_nil x)
  | case2 visited cur rest ih =>
    intro hcl x hx
    rw [bfsLoop] at hx ⊢
    refine ih ?_ x hx
    intro z hz hznq
    have hzrest : z ∉ rest := fun h => hznq (List.mem_append_left _ h)
    have hznew : z ∉ (g.adj cur).filter (fun n => n ∉ visited) := by
      intro h
      exact hznq (List.mem_append_right _ ((Finset.mem_sort (α := Int) (· ≤ ·)).mpr h))
    rcases Finset.mem_union.mp hz with hz | hz
    · by_cases hzc : z = cur
      · subst hzc
        intro n hn
        by_cases hnv : n ∈ visited
        · exact Finset.mem_union_left _ hnv
        · exact Finset.mem_union_right _ (Finset.mem_filter.mpr ⟨hn, hnv⟩)
      · have hsub := hcl z hz
          (by simp only [List.mem_cons, not_or]; exact ⟨hzc, hzrest⟩)
        exact Finset.Subset.trans hsub Finset.subset_union_left
    · exact absurd hz hznew

lemma mem_bfsLoop_of_reach (g : AdjMap) (start : Int) :
    ∀ y, Relation.ReflTransGen (adjStep g) start y →
      y ∈ bfsLoop g [start] ({start} : Finset Int) := by
  have hstart : start ∈ bfsLoop g [start] ({start} : Finset Int) :=
    bfsLoop_mono g [start] {start} (Finset.mem_singleton_self start)
  have hclosed := bfsLoop_closed g [start] {start}
    (by
      intro x hx hq
      rw [Finset.mem_singleton.mp hx] at hq
      exact absurd (List.mem_cons_self _ _) hq)
  intro y hy
  induction hy with
  | refl => exact hstart
  | tail _ hstep ih => exact hclosed _ ih hstep

/-- The set computed by `bfsReachable g i` is exactly the set of nodes other
than `i` reachable from `i` by a nonempty chain of adjacency hops. -/
lemma bfsReachable_spec (g : AdjMap) (i : Int) :
    ↑(bfsReachable g i) = {j : Int | j ≠ i ∧ Relation.TransGen (adjStep g) i j} := by
  ext j
  simp only [bfsReachable, Finset.coe_erase, Set.mem_diff, Set.mem_singleton_iff,
    Finset.mem_coe, Set.mem_setOf_eq]
  constructor
  · rintro ⟨hj, hne⟩
    refine ⟨hne, ?_⟩
    have hreach := bfsLoop_sound g i [i] {i}
      (fun x hx => by rw [Finset.mem_singleton.mp hx])
      (fun x hx => by rw [List.mem_singleton.mp hx]; exact Finset.mem_singleton_self i)
      j hj
    rcases (Relation.reflTransGen_iff_eq_or_transGen.mp hreach) with h | h
    · exact absurd h hne
    · exact h
  · rintro ⟨hne, hreach⟩
    exact ⟨mem_bfsLoop_of_reach g i j hreach.to_reflTransGen, hne⟩

/-- Model of `InterferenceGraph::computeTransitiveClosure`: for each key of the
adjacency list, store `bfsReachable` of that key. -/
def computeTransitiveClosure (g : AdjMap) : AdjMap where
  keys := g.keys
  adj := fun i => if i ∈ g.keys then bfsReachable g i else ∅
  absent := by intro i h; simp [h]

/-- The observable state of an `InterferenceGraph` after a build: the
adjacency list and the transitive-closure map. -/
structure GraphResult where
  adjacency : AdjMap
  closure : AdjMap

/-- Model of `InterferenceGraph::canCommunicate`: look `id1` up in the
transitive-closure map; absent means `false`, otherwise test membership of
`id2` in the stored set. -/
def canCommunicate (gr : GraphResult) (id1 id2 : Int) : Prop :=
  id1 ∈ gr.closure.keys ∧ id2 ∈ gr.closure.adj id1

/-! ### Snapshots and the distance gate (`buildGraphFromSnapshots`) -/

/-- The `VehicleSnapshot` record from `interference_graph.h`. -/
structure VehicleSnapshot where
  id : Int
  lon : ℝ
  lat : ℝ
  transmissionRange : ℝ
  microAntennaId : Int

/-- The builder term `dLat = (v2.lat - v1.lat) * 111000.0`. -/
noncomputable def snapDLat (v1 v2 : VehicleSnapshot) : ℝ :=
  (v2.lat - v1.lat) * 111000

/-- The builder term `dLon = (v2.lon - v1.lon) * 111000.0 * cos(v1.lat * M_PI / 180.0)`. -/
noncomputable def snapDLon (v1 v2 : VehicleSnapshot) : ℝ :=
  (v2.lon - v1.lon) * 111000 * Real.cos (v1.lat * Real.pi / 180)

/-- The builder term `distance = sqrt(dLat * dLat + dLon * dLon)`. -/
noncomputable def snapDistance (v1 v2 : VehicleSnapshot) : ℝ :=
  Real.sqrt (snapDLat v1 v2 * snapDLat v1 v2 + snapDLon v1 v2 * snapDLon v1 v2)

/-- The two-sided range gate
`distance <= v1.transmissionRange && distance <= v2.transmissionRange`. -/
def linked (v1 v2 : VehicleSnapshot) : Prop :=
  snapDistance v1 v2 ≤ v1.transmissionRange ∧ snapDistance v1 v2 ≤ v2.transmissionRange

noncomputable instance (v1 v2 : VehicleSnapshot) : Decidable (linked v1 v2) := by
  unfold linked
  infer_instance

/-- The `AntennaNeighborhood` record from `interference_graph.h`; the `unordered_map`s are
modelled as association lists (their iteration order does not affect the
resulting adjacency, which is a set). -/
structure AntennaNeighborhood where
  vehiclesPerAntenna : List (Int × List Nat)
  neighborAntennas : List (Int × Finset Int)

/-- Lookup in an association list keyed by `int`. -/
def lookupAssoc {α : Type} (l : List (Int × α)) (k : Int) : Option α :=
  (l.find? (fun p => p.1 == k)).map (fun p => p.2)

/-- All ordered position pairs `(i, j)` with `i` before `j`, in the order the
double loop `for i; for j = i+1` visits them. -/
def pairsBelow {α : Type} : List α → List (α × α)
  | [] => []
  | x :: xs => xs.map (fun y => (x, y)) ++ pairsBelow xs

/-- The index pairs compared by the antenna-optimised path of
`buildGraphFromSnapshots`: for each cell, the pairs inside the cell, then for
each neighbor cell with a strictly larger id, all cross pairs. -/
def consideredPairs (info : AntennaNeighborhood) : List (Nat × Nat) :=
  info.vehiclesPerAntenna.flatMap (fun cell =>
    pairsBelow cell.2 ++
    (match lookupAssoc info.neighborAntennas cell.1 with
     | none => []
     | some nbrs =>
       (nbrs.sort (· ≤ ·)).flatMap (fun nId =>
         if nId ≤ cell.1 then []
         else
           match lookupAssoc info.vehiclesPerAntenna nId with
           | none => []
           | some idxs2 => cell.2.flatMap (fun i => idxs2.map (fun j => (i, j))))))

/-- Initial adjacency list: one empty entry per snapshot id. -/
def initAdj (snapshots : List VehicleSnapshot) : AdjMap where
  keys := (snapshots.map (fun s => s.id)).toFinset
  adj := fun _ => ∅
  absent := fun _ _ => rfl

/-- The common insertion loop: for each index pair, skip it if either index is
out of range (`idx >= snapshots.size()`), otherwise compare the distance with
both ranges and insert the edge in both directions. -/
noncomputable def insertLinkedPairs (snapshots : List VehicleSnapshot)
    (init : AdjMap) (pairs : List (Nat × Nat)) : AdjMap :=
  pairs.foldl (fun m p =>
    match snapshots[p.1]?, snapshots[p.2]? with
    | some v1, some v2 => if linked v1 v2 then addEdge m v1.id v2.id else m
    | _, _ => m) init

/-- Model of `InterferenceGraph::buildGraphFromSnapshots`, parameterised by the
`m_computeTransitive` flag (set through `enableTransitiveClosure` before the
build).  A null pointer is `none`; the maps are cleared first, so an empty
snapshot list yields the empty result. -/
noncomputable def buildGraphFromSnapshots (computeTransitive : Bool)
    (snapshots : List VehicleSnapshot) (antennaInfo : Option AntennaNeighborhood) :
    GraphResult :=
  if snapshots.isEmpty then ⟨emptyAdjMap, emptyAdjMap⟩
  else
    let pairs : List (Nat × Nat) :=
      match antennaInfo with
      | some info =>
        if info.vehiclesPerAntenna = [] then pairsBelow (List.range snapshots.length)
        else consideredPairs info
      | none => pairsBelow (List.range snapshots.length)
    let adjm := insertLinkedPairs snapshots (initAdj snapshots) pairs
    ⟨adjm, if computeTransitive then computeTransitiveClosure adjm else emptyAdjMap⟩

/-! ### The live-vehicle builders (`buildGraphClassic`, `buildGraphWithSpatialGrid`) -/

/-- Model of `std::atan2(y, x)`, with range `(-π, π]` and `atan2(0, 0) = 0`, modelled as
the argument of the complex number `x + y·i`. -/
noncomputable def atan2 (y x : ℝ) : ℝ := Complex.arg ⟨x, y⟩

/-- Model of `GraphBuilder::distance`: equirectangular approximation for small deltas,
haversine otherwise (used by `Vehicule::calculateDist`). -/
noncomputable def gbDistance (lat1 lon1 lat2 lon2 : ℝ) : ℝ :=
  let R : ℝ := 6371000
  let dLat := lat2 - lat1
  let dLon := lon2 - lon1
  if |dLat| < 0.02 ∧ |dLon| < 0.02 then
    let x := dLon * Real.pi / 180 * Real.cos ((lat1 + lat2) / 2 * Real.pi / 180)
    let y := dLat * Real.pi / 180
    R * Real.sqrt (x * x + y * y)
  else
    let rLat := dLat * Real.pi / 180
    let rLon := dLon * Real.pi / 180
    let a := Real.sin (rLat / 2) * Real.sin (rLat / 2) +
      Real.cos (lat1 * Real.pi / 180) * Real.cos (lat2 * Real.pi / 180) *
        Real.sin (rLon / 2) * Real.sin (rLon / 2)
    let c := 2 * atan2 (Real.sqrt a) (Real.sqrt (1 - a))
    R * c

/-- The data of a live `Vehicule*` that the builders read: id, position
(`getPosition`) and transmission range. -/
structure VehiclePose where
  id : Int
  lat : ℝ
  lon : ℝ
  transmissionRange : ℝ

/-- The `v1->calculateDist(*v2) <= range` gate of the classic and spatial-grid
paths. -/
def vehLinked (v1 v2 : VehiclePose) : Prop :=
  gbDistance v1.lat v1.lon v2.lat v2.lon ≤ v1.transmissionRange ∧
  gbDistance v1.lat v1.lon v2.lat v2.lon ≤ v2.transmissionRange

noncomputable instance (v1 v2 : VehiclePose) : Decidable (vehLinked v1 v2) := by
  unfold vehLinked
  infer_instance

/-- Model of `InterferenceGraph::buildGraphClassic`: all pairs `i < j`, skipping null
pointers, with the two-sided range gate. -/
noncomputable def buildGraphClassic (vehicles : List (Option VehiclePose))
    (init : AdjMap) : AdjMap :=
  (pairsBelow (List.range vehicles.length)).foldl (fun m p =>
    match vehicles[p.1]?.join, vehicles[p.2]?.join with
    | some v1, some v2 => if vehLinked v1 v2 then addEdge m v1.id v2.id else m
    | _, _ => m) init

/-- Model of `m_vehicleMap.find(id)`: the map is filled by `m_vehicleMap[v->getId()] = v`
in list order, so the last vehicle with a given id wins. -/
def vehicleMapFind (vehicles : List (Option VehiclePose)) (vid : Int) :
    Option VehiclePose :=
  vehicles.reduceOption.reverse.find? (fun v => v.id == vid)

/-- Model of `InterferenceGraph::buildGraphWithSpatialGrid`, parameterised by the
spatial grid's `getNearbyVehicles` answer (`SpatialGrid` is implemented
outside the interference-graph translation unit): for each non-null vehicle,
compare against each nearby id strictly greater than its own. -/
noncomputable def buildGraphWithSpatialGrid (nearby : Int → List Int)
    (vehicles : List (Option VehiclePose)) (init : AdjMap) : AdjMap :=
  vehicles.foldl (fun m ov =>
    match ov with
    | none => m
    | some v1 =>
      (nearby v1.id).foldl (fun m2 nid =>
        if nid ≤ v1.id then m2
        else
          match vehicleMapFind vehicles nid with
          | none => m2
          | some v2 => if vehLinked v1 v2 then addEdge m2 v1.id v2.id else m2) m) init

/-! ### Membership characterisation of the insertion loop -/

/-- The pair of indices `p` makes the loop insert the edge `(x, y)`: both
lookups succeed, the gate passes, and the ids match in one of the two
insertion directions. -/
def pairInserts (snapshots : List VehicleSnapshot) (x y : Int) (p : Nat × Nat) : Prop :=
  ∃ v1 v2, snapshots[p.1]? = some v1 ∧ snapshots[p.2]? = some v2 ∧ linked v1 v2 ∧
    ((x = v1.id ∧ y = v2.id) ∨ (x = v2.id ∧ y = v1.id))

lemma mem_insertLinkedPairs {snapshots : List VehicleSnapshot} {init : AdjMap}
    {pairs : List (Nat × Nat)} {x y : Int} :
    y ∈ (insertLinkedPairs snapshots init pairs).adj x ↔
      y ∈ init.adj x ∨ ∃ p ∈ pairs, pairInserts snapshots x y p := by
  induction pairs generalizing init with
  | nil => simp [insertLinkedPairs]
  | cons p ps ih =>
    have hstep : insertLinkedPairs snapshots init (p :: ps) =
        insertLinkedPairs snapshots
          (match snapshots[p.1]?, snapshots[p.2]? with
           | some v1, some v2 => if linked v1 v2 then addEdge init v1.id v2.id else init
           | _, _ => init) ps := rfl
    rw [hstep, ih, List.exists_mem_cons_iff]
    rcases h1 : snapshots[p.1]? with _ | v1 <;> rcases h2 : snapshots[p.2]? with _ | v2 <;>
      simp only [h1, h2]
    · have hfalse : ¬ pairInserts snapshots x y p := by
        rintro ⟨w1, w2, hw1, _⟩
        rw [h1] at hw1
        exact Option.noConfusion hw1
      tauto
    · have hfalse : ¬ pairInserts snapshots x y p := by
        rintro ⟨w1, w2, hw1, _⟩
        rw [h1] at hw1
        exact Option.noConfusion hw1
      tauto
    · have hfalse : ¬ pairInserts snapshots x y p := by
        rintro ⟨w1, w2, hw1, hw2, _⟩
        rw [h2] at hw2
        exact Option.noConfusion hw2
      tauto
    · by_cases hl : linked v1 v2
      · rw [if_pos hl, mem_addEdge]
        have hp : pairInserts snapshots x y p ↔
            ((x = v1.id ∧ y = v2.id) ∨ (x = v2.id ∧ y = v1.id)) := by
          unfold pairInserts
          rw [h1, h2]
          simp [hl]
        rw [hp]
        tauto
      · rw [if_neg hl]
        have hfalse : ¬ pairInserts snapshots x y p := by
          rintro ⟨w1, w2, hw1, hw2, hwl, _⟩
          rw [h1] at hw1
          rw [h2] at hw2
          cases Option.some_inj.mp hw1
          cases Option.some_inj.mp hw2
          exact hl hwl
        tauto

/-- Initial adjacency of `InterferenceGraph::buildGraph`: one empty entry per
non-null vehicle id. -/
def initAdjVeh (vehicles : List (Option VehiclePose)) : AdjMap where
  keys := (vehicles.reduceOption.map (fun v => v.id)).toFinset
  adj := fun _ => ∅
  absent := fun _ _ => rfl

/-- Model of `InterferenceGraph::buildGraph`: empty input short-circuits; the
spatial-grid path runs for at least 20 vehicles when enabled, the classic path
otherwise; the transitive closure is appended when enabled. -/
noncomputable def buildGraph (useSpatialGrid : Bool) (nearby : Int → List Int)
    (computeTransitive : Bool) (vehicles : List (Option VehiclePose)) : GraphResult :=
  if vehicles.isEmpty then ⟨emptyAdjMap, emptyAdjMap⟩
  else
    let init := initAdjVeh vehicles
    let adjm := if useSpatialGrid ∧ 20 ≤ vehicles.length then
        buildGraphWithSpatialGrid nearby vehicles init
      else buildGraphClassic vehicles init
    ⟨adjm, if computeTransitive then computeTransitiveClosure adjm else emptyAdjMap⟩

/-! ### Symmetry of every build path -/

lemma Symm.emptyAdjMap : Symm emptyAdjMap := by
  intro x y
  simp [V2V.emptyAdjMap]

lemma Symm.initAdj (snapshots : List VehicleSnapshot) : Symm (initAdj snapshots) := by
  intro x y
  simp [V2V.initAdj]

lemma Symm.initAdjVeh (vehicles : List (Option VehiclePose)) : Symm (initAdjVeh vehicles) := by
  intro x y
  simp [V2V.initAdjVeh]

lemma Symm.insertLinkedPairs {snapshots : List VehicleSnapshot} {init : AdjMap}
    (h : Symm init) (pairs : List (Nat × Nat)) :
    Symm (V2V.insertLinkedPairs snapshots init pairs) := by
  refine Symm.foldl ?_ pairs init h
  intro m p hm
  rcases snapshots[p.1]? with _ | v1 <;> rcases snapshots[p.2]? with _ | v2 <;>
    simp only []
  · exact hm
  · exact hm
  · exact hm
  · by_cases hl : linked v1 v2
    · rw [if_pos hl]
      exact hm.addEdge _ _
    · rw [if_neg hl]
      exact hm

lemma Symm.buildGraphClassic {vehicles : List (Option VehiclePose)} {init : AdjMap}
    (h : Symm init) : Symm (V2V.buildGraphClassic vehicles init) := by
  refine Symm.foldl ?_ _ init h
  intro m p hm
  rcases vehicles[p.1]?.join with _ | v1 <;> rcases vehicles[p.2]?.join with _ | v2 <;>
    simp only []
  · exact hm
  · exact hm
  · exact hm
  · by_cases hl : vehLinked v1 v2
    · rw [if_pos hl]
      exact hm.addEdge _ _
    · rw [if_neg hl]
      exact hm

lemma Symm.buildGraphWithSpatialGrid {nearby : Int → List Int}
    {vehicles : List (Option VehiclePose)} {init : AdjMap} (h : Symm init) :
    Symm (V2V.buildGraphWithSpatialGrid nearby vehicles init) := by
  refine Symm.foldl ?_ _ init h
  intro m ov hm
  rcases ov with _ | v1
  · exact hm
  · refine Symm.foldl ?_ _ m hm
    intro m2 nid hm2
    by_cases hle : nid ≤ v1.id
    · rw [if_pos hle]
      exact hm2
    · rw [if_neg hle]
      rcases vehicleMapFind vehicles nid with _ | v2 <;> dsimp only
      · exact hm2
      · by_cases hl : vehLinked v1 v2
        · rw [if_pos hl]
          exact hm2.addEdge _ _
        · rw [if_neg hl]
          exact hm2

/-- C3: for every build path, the produced adjacency is symmetric:
`j ∈ adjacency[i] ⇔ i ∈ adjacency[j]`. -/
theorem adjacency_symmetric_all_builds :
    (∀ (computeTransitive : Bool) (snapshots : List VehicleSnapshot)
       (antennaInfo : Option AntennaNeighborhood),
       Symm (buildGraphFromSnapshots computeTransitive snapshots antennaInfo).adjacency) ∧
    (∀ (useSpatialGrid computeTransitive : Bool) (nearby : Int → List Int)
       (vehicles : List (Option VehiclePose)),
       Symm (buildGraph useSpatialGrid nearby computeTransitive vehicles).adjacency) := by
  constructor
  · intro ct snaps info
    unfold buildGraphFromSnapshots
    split
    · exact Symm.emptyAdjMap
    · exact Symm.insertLinkedPairs (Symm.initAdj snaps) _
  · intro useSG ct nearby vehicles
    unfold buildGraph
    split
    · exact Symm.emptyAdjMap
    · dsimp only
      split
      · exact Symm.buildGraphWithSpatialGrid (Symm.initAdjVeh vehicles)
      · exact Symm.buildGraphClassic (Symm.initAdjVeh vehicles)

/-! ### C2: the closure map is the transitive closure of the adjacency -/

lemma computeTransitiveClosure_spec (g : AdjMap) (i : Int) (hi : i ∈ g.keys) :
    ((computeTransitiveClosure g).adj i : Set Int) =
      {j : Int | j ≠ i ∧ Relation.TransGen (adjStep g) i j} ∧
    i ∉ (computeTransitiveClosure g).adj i := by
  have hadj : (computeTransitiveClosure g).adj i = bfsReachable g i := if_pos hi
  rw [hadj]
  exact ⟨bfsReachable_spec g i, Finset.not_mem_erase i _⟩

/-- C2: with transitive closure enabled, for every id in the built adjacency
map, `closure[i]` is exactly the set of ids `j ≠ i` reachable from `i` by a
nonempty adjacency path, and never contains `i` itself. -/
theorem closure_is_transitive_closure
    (snapshots : List VehicleSnapshot) (antennaInfo : Option AntennaNeighborhood)
    (i : Int)
    (hi : i ∈ (buildGraphFromSnapshots true snapshots antennaInfo).adjacency.keys) :
    (((buildGraphFromSnapshots true snapshots antennaInfo).closure.adj i : Set Int) =
      {j : Int | j ≠ i ∧ Relation.TransGen
        (adjStep (buildGraphFromSnapshots true snapshots antennaInfo).adjacency) i j}) ∧
    i ∉ (buildGraphFromSnapshots true snapshots antennaInfo).closure.adj i := by
  by_cases he : snapshots.isEmpty = true
  · unfold buildGraphFromSnapshots at hi
    rw [if_pos he] at hi
    exact absurd hi (Finset.not_mem_empty i)
  · unfold buildGraphFromSnapshots at hi ⊢
    rw [if_neg he] at hi ⊢
    exact computeTransitiveClosure_spec _ i hi

/-- C2 witness: one snapshot, no antenna info. -/
theorem closure_is_transitive_closure_witness :
    (0 : Int) ∈ (buildGraphFromSnapshots true
        [⟨0, 0, 0, 500, -1⟩] none).adjacency.keys ∧
    (((buildGraphFromSnapshots true [⟨0, 0, 0, 500, -1⟩] none).closure.adj 0 : Set Int) =
      {j : Int | j ≠ 0 ∧ Relation.TransGen
        (adjStep (buildGraphFromSnapshots true [⟨0, 0, 0, 500, -1⟩] none).adjacency) 0 j}) := by
  have hk : (0 : Int) ∈ (buildGraphFromSnapshots true
      [⟨0, 0, 0, 500, -1⟩] none).adjacency.keys := by
    unfold buildGraphFromSnapshots
    simp [insertLinkedPairs, pairsBelow, initAdj]
  exact ⟨hk, (closure_is_transitive_closure [⟨0, 0, 0, 500, -1⟩] none 0 hk).1⟩

/-! ### C10: canCommunicate reads only the closure map -/

/-- C10: `canCommunicate` consults only the transitive-closure map: after a
build with closure computation disabled it is false for every pair, and it is
false whenever `id1` is absent from the closure map. -/
theorem canCommunicate_needs_closure :
    (∀ (snapshots : List VehicleSnapshot) (antennaInfo : Option AntennaNeighborhood)
       (id1 id2 : Int),
       ¬ canCommunicate (buildGraphFromSnapshots false snapshots antennaInfo) id1 id2) ∧
    (∀ (gr : GraphResult) (id1 id2 : Int),
       id1 ∉ gr.closure.keys → ¬ canCommunicate gr id1 id2) := by
  constructor
  · intro snaps info id1 id2 hc
    have hk : (buildGraphFromSnapshots false snaps info).closure.keys = ∅ := by
      unfold buildGraphFromSnapshots
      split
      · rfl
      · rfl
    rw [canCommunicate, hk] at hc
    exact Finset.not_mem_empty id1 hc.1
  · intro gr id1 id2 h hc
    exact h hc.1

/-- C10 witness: the empty build, and an id absent from the closure map. -/
theorem canCommunicate_needs_closure_witness :
    (0 : Int) ∉ (buildGraphFromSnapshots false [] none).closure.keys ∧
    ¬ canCommunicate (buildGraphFromSnapshots false [] none) 0 1 := by
  have h0 : (0 : Int) ∉ (buildGraphFromSnapshots false [] none).closure.keys := by
    unfold buildGraphFromSnapshots
    simp [emptyAdjMap]
  exact ⟨h0, canCommunicate_needs_closure.2 _ 0 1 h0⟩

/-! ### Structure of the considered index pairs -/

lemma mem_pairsBelow_both {α : Type} {xs : List α} {k l : α}
    (h : (k, l) ∈ pairsBelow xs) : k ∈ xs ∧ l ∈ xs := by
  induction xs with
  | nil => simp [pairsBelow] at h
  | cons x s ih =>
    simp only [pairsBelow, List.mem_append] at h
    rcases h with h | h
    · rcases List.mem_map.mp h with ⟨y, hy, hxy⟩
      injection hxy with e1 e2
      subst e1
      subst e2
      exact ⟨List.mem_cons_self _ _, List.mem_cons_of_mem _ hy⟩
    · rcases ih h with ⟨h1, h2⟩
      exact ⟨List.mem_cons_of_mem _ h1, List.mem_cons_of_mem _ h2⟩

lemma pairsBelow_asym {α : Type} {xs : List α} (hnd : xs.Nodup) {k l : α}
    (h1 : (k, l) ∈ pairsBelow xs) (h2 : (l, k) ∈ pairsBelow xs) : False := by
  induction xs with
  | nil => simp [pairsBelow] at h1
  | cons x s ih =>
    rcases List.nodup_cons.mp hnd with ⟨hx, hs⟩
    simp only [pairsBelow, List.mem_append] at h1 h2
    rcases h1 with h1 | h1 <;> rcases h2 with h2 | h2
    · rcases List.mem_map.mp h1 with ⟨y, hy, hxy⟩
      injection hxy with e1 e2
      subst e1
      subst e2
      rcases List.mem_map.mp h2 with ⟨z, hz, hxz⟩
      injection hxz with e3 e4
      exact hx (e4 ▸ hz)
    · rcases List.mem_map.mp h1 with ⟨y, hy, hxy⟩
      injection hxy with e1 e2
      subst e1
      subst e2
      exact hx (mem_pairsBelow_both h2).2
    · rcases List.mem_map.mp h2 with ⟨y, hy, hxy⟩
      injection hxy with e1 e2
      subst e1
      subst e2
      exact hx (mem_pairsBelow_both h1).2
    · exact ih hs h1 h2

lemma pairsBelow_map {α β : Type} (f : α → β) (xs : List α) :
    pairsBelow (xs.map f) = (pairsBelow xs).map (fun p => (f p.1, f p.2)) := by
  induction xs with
  | nil => rfl
  | cons x s ih =>
    simp only [List.map_cons, pairsBelow, List.map_append, ih, List.map_map]
    rfl

lemma mem_pairsBelow_range {n k l : Nat} :
    (k, l) ∈ pairsBelow (List.range n) ↔ k < l ∧ l < n := by
  induction n generalizing k l with
  | zero => simp [List.range_zero, pairsBelow]
  | succ n ih =>
    rw [List.range_succ_eq_map]
    simp only [pairsBelow, List.mem_append, pairsBelow_map]
    constructor
    · rintro (h | h)
      · rcases List.mem_map.mp h with ⟨y, hy, hxy⟩
        rcases List.mem_map.mp hy with ⟨m, hm, rfl⟩
        injection hxy with e1 e2
        subst e1
        subst e2
        exact ⟨Nat.succ_pos m, Nat.succ_lt_succ (List.mem_range.mp hm)⟩
      · rcases List.mem_map.mp h with ⟨p, hp, hxy⟩
        injection hxy with e1 e2
        subst e1
        subst e2
        rcases ih.mp hp with ⟨h1, h2⟩
        exact ⟨Nat.succ_lt_succ h1, Nat.succ_lt_succ h2⟩
    · rintro ⟨h1, h2⟩
      match k, l with
      | 0, l + 1 =>
        refine Or.inl (List.mem_map.mpr ⟨l + 1, List.mem_map.mpr ⟨l, ?_, rfl⟩, rfl⟩)
        exact List.mem_range.mpr (Nat.lt_of_succ_lt_succ h2)
      | k + 1, l + 1 =>
        refine Or.inr (List.mem_map.mpr ⟨(k, l), ?_, rfl⟩)
        exact ih.mpr ⟨Nat.lt_of_succ_lt_succ h1, Nat.lt_of_succ_lt_succ h2⟩

lemma lookupAssoc_mem {α : Type} {l : List (Int × α)} {k : Int} {v : α}
    (h : lookupAssoc l k = some v) : (k, v) ∈ l := by
  unfold lookupAssoc at h
  rcases hf : l.find? (fun p => p.1 == k) with _ | p
  · rw [hf] at h
    exact Option.noConfusion h
  · rw [hf] at h
    simp only [Option.map_some', Option.some.injEq] at h
    have hmem := List.mem_of_find?_eq_some hf
    have hpred : p.1 = k := by
      have := List.find?_some hf
      simpa using this
    obtain ⟨p1, p2⟩ := p
    cases hpred
    cases h
    exact hmem

/-- The pair `(k, l)` is compared inside a single cell: `k` occurs before `l`
in that cell's index list. -/
def SameCellPair (info : AntennaNeighborhood) (k l : Nat) : Prop :=
  ∃ cell ∈ info.vehiclesPerAntenna, (k, l) ∈ pairsBelow cell.2

/-- The pair `(k, l)` is compared across two neighboring cells: `k` lives in a
cell whose neighbor set contains the strictly larger cell id holding `l`. -/
def CrossCellPair (info : AntennaNeighborhood) (k l : Nat) : Prop :=
  ∃ cell ∈ info.vehiclesPerAntenna, ∃ nbrs,
    lookupAssoc info.neighborAntennas cell.1 = some nbrs ∧
    ∃ nId ∈ nbrs, cell.1 < nId ∧ ∃ idxs2,
      lookupAssoc info.vehiclesPerAntenna nId = some idxs2 ∧ k ∈ cell.2 ∧ l ∈ idxs2

lemma mem_consideredPairs {info : AntennaNeighborhood} {k l : Nat} :
    (k, l) ∈ consideredPairs info ↔ SameCellPair info k l ∨ CrossCellPair info k l := by
  unfold consideredPairs SameCellPair CrossCellPair
  constructor
  · intro h
    rcases List.mem_flatMap.mp h with ⟨cell, hcell, hmem⟩
    rcases List.mem_append.mp hmem with hmem | hmem
    · exact Or.inl ⟨cell, hcell, hmem⟩
    · rcases hl : lookupAssoc info.neighborAntennas cell.1 with _ | nbrs
      · rw [hl] at hmem
        simp at hmem
      · rw [hl] at hmem
        rcases List.mem_flatMap.mp hmem with ⟨nId, hnId, hmem2⟩
        rw [Finset.mem_sort] at hnId
        by_cases hle : nId ≤ cell.1
        · rw [if_pos hle] at hmem2
          simp at hmem2
        · rw [if_neg hle] at hmem2
          rcases hl2 : lookupAssoc info.vehiclesPerAntenna nId with _ | idxs2
          · rw [hl2] at hmem2
            simp at hmem2
          · rw [hl2] at hmem2
            rcases List.mem_flatMap.mp hmem2 with ⟨i, hi, hmem3⟩
            rcases List.mem_map.mp hmem3 with ⟨j, hj, hij⟩
            injection hij with e1 e2
            subst e1
            subst e2
            exact Or.inr ⟨cell, hcell, nbrs, hl, nId, hnId, not_le.mp hle, idxs2, hl2, hi, hj⟩
  · rintro (⟨cell, hcell, hmem⟩ | ⟨cell, hcell, nbrs, hl, nId, hnId, hlt, idxs2, hl2, hk, hlm⟩)
    · exact List.mem_flatMap.mpr ⟨cell, hcell, List.mem_append_left _ hmem⟩
    · refine List.mem_flatMap.mpr ⟨cell, hcell, List.mem_append_right _ ?_⟩
      rw [hl]
      refine List.mem_flatMap.mpr ⟨nId, (Finset.mem_sort _).mpr hnId, ?_⟩
      rw [if_neg (not_le.mpr hlt), hl2]
      exact List.mem_flatMap.mpr ⟨k, hk, List.mem_map.mpr ⟨l, hlm, rfl⟩⟩

/-- Well-formedness of the antenna info as `Simulator::startGraphCalculation`
assembles it: listed indices are in range, no cell lists an index twice, and
no index appears under two different cells. -/
structure InfoWF (info : AntennaNeighborhood) (snapshots : List VehicleSnapshot) : Prop where
  inRange : ∀ cell ∈ info.vehiclesPerAntenna, ∀ i ∈ cell.2, i < snapshots.length
  nodupCell : ∀ cell ∈ info.vehiclesPerAntenna, cell.2.Nodup
  atMostOne : ∀ c1 ∈ info.vehiclesPerAntenna, ∀ c2 ∈ info.vehiclesPerAntenna,
    ∀ i, i ∈ c1.2 → i ∈ c2.2 → c1 = c2

lemma considered_both_listed {info : AntennaNeighborhood} {k l : Nat}
    (h : (k, l) ∈ consideredPairs info) :
    (∃ cell ∈ info.vehiclesPerAntenna, k ∈ cell.2) ∧
    (∃ cell ∈ info.vehiclesPerAntenna, l ∈ cell.2) := by
  rcases mem_consideredPairs.mp h with ⟨cell, hc, hp⟩ |
    ⟨cell, hc, nbrs, hl, nId, hn, hlt, idxs2, hl2, hk, hl3⟩
  · rcases mem_pairsBelow_both hp with ⟨h1, h2⟩
    exact ⟨⟨cell, hc, h1⟩, ⟨cell, hc, h2⟩⟩
  · exact ⟨⟨cell, hc, hk⟩, ⟨(nId, idxs2), lookupAssoc_mem hl2, hl3⟩⟩

lemma considered_asym {info : AntennaNeighborhood} {snapshots : List VehicleSnapshot}
    (wf : InfoWF info snapshots) {k l : Nat}
    (h1 : (k, l) ∈ consideredPairs info) (h2 : (l, k) ∈ consideredPairs info) : False := by
  rcases mem_consideredPairs.mp h1 with ⟨c1, hc1, hp1⟩ |
    ⟨c1, hc1, nbrs1, hn1, nId1, hm1, hlt1, idxs1, hi1, hk1, hl1⟩ <;>
    rcases mem_consideredPairs.mp h2 with ⟨c2, hc2, hp2⟩ |
      ⟨c2, hc2, nbrs2, hn2, nId2, hm2, hlt2, idxs2, hi2, hk2, hl2⟩
  · obtain ⟨hk1, hl1⟩ := mem_pairsBelow_both hp1
    obtain ⟨hl2, hk2⟩ := mem_pairsBelow_both hp2
    cases wf.atMostOne c1 hc1 c2 hc2 k hk1 hk2
    exact pairsBelow_asym (wf.nodupCell c1 hc1) hp1 hp2
  · obtain ⟨hk1m, hl1m⟩ := mem_pairsBelow_both hp1
    have hcellN := lookupAssoc_mem hi2
    have e1 := wf.atMostOne c1 hc1 c2 hc2 l hl1m hk2
    have e2 := wf.atMostOne c1 hc1 (nId2, idxs2) hcellN k hk1m hl2
    rw [← e1] at hlt2
    have e3 : c1.1 = nId2 := by rw [e2]
    rw [e3] at hlt2
    exact lt_irrefl _ hlt2
  · obtain ⟨hl2m, hk2m⟩ := mem_pairsBelow_both hp2
    have hcellN := lookupAssoc_mem hi1
    have e1 := wf.atMostOne c2 hc2 c1 hc1 k hk2m hk1
    have e2 := wf.atMostOne c2 hc2 (nId1, idxs1) hcellN l hl2m hl1
    rw [← e1] at hlt1
    have e3 : c2.1 = nId1 := by rw [e2]
    rw [e3] at hlt1
    exact lt_irrefl _ hlt1
  · have hcellN1 := lookupAssoc_mem hi1
    have hcellN2 := lookupAssoc_mem hi2
    have e1 := wf.atMostOne c1 hc1 (nId2, idxs2) hcellN2 k hk1 hl2
    have e2 := wf.atMostOne c2 hc2 (nId1, idxs1) hcellN1 l hk2 hl1
    have e3 : c1.1 = nId2 := by rw [e1]
    have e4 : c2.1 = nId1 := by rw [e2]
    rw [e4] at hlt2
    rw [e3] at hlt1
    exact lt_irrefl _ (hlt1.trans hlt2)

lemma snapshot_id_inj {snapshots : List VehicleSnapshot}
    (hnd : (snapshots.map (fun s => s.id)).Nodup) {i j : Nat} {vi vj : VehicleSnapshot}
    (hi : snapshots[i]? = some vi) (hj : snapshots[j]? = some vj)
    (hid : vi.id = vj.id) : i = j := by
  have hi' : (snapshots.map (fun s => s.id))[i]? = some vi.id := by
    rw [List.getElem?_map, hi]
    rfl
  have hj' : (snapshots.map (fun s => s.id))[j]? = some vj.id := by
    rw [List.getElem?_map, hj]
    rfl
  have hlen : i < (snapshots.map (fun s => s.id)).length := by
    rw [List.length_map]
    exact (List.getElem?_eq_some.mp hi).1
  refine List.getElem?_inj hlen hnd ?_
  rw [hi', hj', hid]

/-- The adjacency produced by the antenna path of `buildGraphFromSnapshots`. -/
noncomputable def antennaAdjacency (snapshots : List VehicleSnapshot)
    (info : AntennaNeighborhood) : AdjMap :=
  insertLinkedPairs snapshots (initAdj snapshots) (consideredPairs info)

lemma buildGraphFromSnapshots_antenna_adjacency {computeTransitive : Bool}
    {snapshots : List VehicleSnapshot} {info : AntennaNeighborhood}
    (hne : snapshots ≠ []) (hinfo : info.vehiclesPerAntenna ≠ []) :
    (buildGraphFromSnapshots computeTransitive snapshots (some info)).adjacency =
      antennaAdjacency snapshots info := by
  unfold buildGraphFromSnapshots
  rw [if_neg (by simpa [List.isEmpty_iff] using hne)]
  simp only [if_neg hinfo]
  rfl

/-- C1: in the antenna-optimised build, a pair the builder considers produces
the undirected edge exactly when the equirectangular distance (taken from the
first element of the pair) passes both range gates; in particular, with ranges
100 and 50 and distance 75 the edge is absent. -/
theorem considered_pair_edge_iff
    (computeTransitive : Bool) (snapshots : List VehicleSnapshot)
    (info : AntennaNeighborhood) (i j : Nat) (vi vj : VehicleSnapshot)
    (wf : InfoWF info snapshots)
    (hnd : (snapshots.map (fun s => s.id)).Nodup)
    (hc : (i, j) ∈ consideredPairs info)
    (hvi : snapshots[i]? = some vi) (hvj : snapshots[j]? = some vj) :
    (vj.id ∈ (buildGraphFromSnapshots computeTransitive snapshots
        (some info)).adjacency.adj vi.id ∧
     vi.id ∈ (buildGraphFromSnapshots computeTransitive snapshots
        (some info)).adjacency.adj vj.id) ↔
    (snapDistance vi vj ≤ vi.transmissionRange ∧
     snapDistance vi vj ≤ vj.transmissionRange) := by
  have hne : snapshots ≠ [] := by
    intro he
    rw [he] at hvi
    exact Option.noConfusion hvi
  have hinfo : info.vehiclesPerAntenna ≠ [] := by
    intro he
    rcases List.mem_flatMap.mp hc with ⟨cell, hcell, _⟩
    rw [he] at hcell
    exact List.not_mem_nil cell hcell
  rw [buildGraphFromSnapshots_antenna_adjacency hne hinfo]
  unfold antennaAdjacency
  constructor
  · rintro ⟨hmem, -⟩
    rcases mem_insertLinkedPairs.mp hmem with h | ⟨p, hp, v1, v2, hv1, hv2, hl, hcase⟩
    · exact absurd h (Finset.not_mem_empty _)
    · rcases hcase with ⟨e1, e2⟩ | ⟨e1, e2⟩
      · have hp1 : p.1 = i := snapshot_id_inj hnd hv1 hvi e1.symm
        have hp2 : p.2 = j := snapshot_id_inj hnd hv2 hvj e2.symm
        rw [hp1, hvi] at hv1
        rw [hp2, hvj] at hv2
        cases Option.some_inj.mp hv1
        cases Option.some_inj.mp hv2
        exact hl
      · have hp1 : p.1 = j := snapshot_id_inj hnd hv1 hvj e2.symm
        have hp2 : p.2 = i := snapshot_id_inj hnd hv2 hvi e1.symm
        have hpji : (j, i) ∈ consideredPairs info := by
          have : p = (j, i) := Prod.ext hp1 hp2
          rw [← this]
          exact hp
        exact absurd hpji (fun h => considered_asym wf hc h)
  · intro hl
    constructor
    · exact mem_insertLinkedPairs.mpr
        (Or.inr ⟨(i, j), hc, vi, vj, hvi, hvj, hl, Or.inl ⟨rfl, rfl⟩⟩)
    · exact mem_insertLinkedPairs.mpr
        (Or.inr ⟨(i, j), hc, vi, vj, hvi, hvj, hl, Or.inr ⟨rfl, rfl⟩⟩)

/-- C1 witness: one cell holding both snapshots, ranges 100 and 50, distance
exactly 75 metres of pure latitude separation: the edge is absent. -/
theorem considered_pair_edge_iff_witness :
    ((0, 1) ∈ consideredPairs ⟨[(0, [0, 1])], []⟩) ∧
    ¬ ((2 : Int) ∈ (buildGraphFromSnapshots false
          [⟨1, 0, 0, 100, 0⟩, ⟨2, 0, 75 / 111000, 50, 0⟩]
          (some ⟨[(0, [0, 1])], []⟩)).adjacency.adj 1 ∧
       (1 : Int) ∈ (buildGraphFromSnapshots false
          [⟨1, 0, 0, 100, 0⟩, ⟨2, 0, 75 / 111000, 50, 0⟩]
          (some ⟨[(0, [0, 1])], []⟩)).adjacency.adj 2) := by
  have hdist : snapDistance ⟨1, 0, 0, 100, 0⟩ ⟨2, 0, 75 / 111000, 50, 0⟩ = 75 := by
    unfold snapDistance snapDLat snapDLon
    dsimp only
    rw [show ((75 : ℝ) / 111000 - 0) * 111000 * (((75 : ℝ) / 111000 - 0) * 111000) +
        ((0 : ℝ) - 0) * 111000 * Real.cos (0 * Real.pi / 180) *
          (((0 : ℝ) - 0) * 111000 * Real.cos (0 * Real.pi / 180)) = 75 ^ 2 from by norm_num]
    exact Real.sqrt_sq (by norm_num)
  refine ⟨by decide, fun hboth => ?_⟩
  have hiff := considered_pair_edge_iff false
      [⟨1, 0, 0, 100, 0⟩, ⟨2, 0, 75 / 111000, 50, 0⟩] ⟨[(0, [0, 1])], []⟩ 0 1
      ⟨1, 0, 0, 100, 0⟩ ⟨2, 0, 75 / 111000, 50, 0⟩
      ⟨by decide, by decide, by decide⟩ (by decide) (by decide) rfl rfl
  have hgate := hiff.mp hboth
  rw [hdist] at hgate
  exact absurd hgate.2 (by norm_num)

/-- C7: with absent or empty antenna info, the build falls back to comparing
every unordered index pair exactly once with the same distance formula and the
same double range gate, so the adjacency holds exactly the mutually-in-range
pairs. -/
theorem fallback_allpairs_exact
    (computeTransitive : Bool) (snapshots : List VehicleSnapshot)
    (antennaInfo : Option AntennaNeighborhood)
    (hne : snapshots ≠ [])
    (hinfo : antennaInfo = none ∨
      ∃ info, antennaInfo = some info ∧ info.vehiclesPerAntenna = [])
    (a b : Int) :
    (b ∈ (buildGraphFromSnapshots computeTransitive snapshots antennaInfo).adjacency.adj a) ↔
      ∃ i j : Nat, i < j ∧ ∃ vi vj, snapshots[i]? = some vi ∧ snapshots[j]? = some vj ∧
        (snapDistance vi vj ≤ vi.transmissionRange ∧
         snapDistance vi vj ≤ vj.transmissionRange) ∧
        ((a = vi.id ∧ b = vj.id) ∨ (a = vj.id ∧ b = vi.id)) := by
  have hadj : (buildGraphFromSnapshots computeTransitive snapshots antennaInfo).adjacency =
      insertLinkedPairs snapshots (initAdj snapshots)
        (pairsBelow (List.range snapshots.length)) := by
    unfold buildGraphFromSnapshots
    rw [if_neg (by simpa [List.isEmpty_iff] using hne)]
    rcases hinfo with rfl | ⟨info, rfl, hempty⟩
    · rfl
    · simp only [if_pos hempty]
  rw [hadj, mem_insertLinkedPairs]
  constructor
  · rintro (h | ⟨p, hp, v1, v2, hv1, hv2, hl, hcase⟩)
    · exact absurd h (Finset.not_mem_empty _)
    · have hrange := mem_pairsBelow_range.mp
        (show (p.1, p.2) ∈ pairsBelow (List.range snapshots.length) from hp)
      exact ⟨p.1, p.2, hrange.1, v1, v2, hv1, hv2, hl, hcase⟩
  · rintro ⟨i, j, hij, vi, vj, hvi, hvj, hl, hcase⟩
    have hjlen : j < snapshots.length := (List.getElem?_eq_some.mp hvj).1
    exact Or.inr ⟨(i, j), mem_pairsBelow_range.mpr ⟨hij, hjlen⟩, vi, vj, hvi, hvj, hl, hcase⟩

/-- C7 witness: two co-located snapshots, null antenna info: the edge is
present. -/
theorem fallback_allpairs_exact_witness :
    ([⟨1, 0, 0, 500, -1⟩, ⟨2, 0, 0, 500, -1⟩] : List VehicleSnapshot) ≠ [] ∧
    (2 : Int) ∈ (buildGraphFromSnapshots false
        [⟨1, 0, 0, 500, -1⟩, ⟨2, 0, 0, 500, -1⟩] none).adjacency.adj 1 := by
  have hdist : snapDistance ⟨1, 0, 0, 500, -1⟩ ⟨2, 0, 0, 500, -1⟩ = 0 := by
    unfold snapDistance snapDLat snapDLon
    dsimp only
    rw [show ((0 : ℝ) - 0) * 111000 * (((0 : ℝ) - 0) * 111000) +
        ((0 : ℝ) - 0) * 111000 * Real.cos (0 * Real.pi / 180) *
          (((0 : ℝ) - 0) * 111000 * Real.cos (0 * Real.pi / 180)) = 0 from by norm_num]
    exact Real.sqrt_zero
  refine ⟨List.cons_ne_nil _ _, ?_⟩
  refine (fallback_allpairs_exact false _ none (List.cons_ne_nil _ _) (Or.inl rfl) 1 2).mpr
    ⟨0, 1, Nat.zero_lt_one, ⟨1, 0, 0, 500, -1⟩, ⟨2, 0, 0, 500, -1⟩, rfl, rfl, ?_,
      Or.inl ⟨rfl, rfl⟩⟩
  rw [hdist]
  norm_num

/-- C9: in the antenna path, a snapshot whose index occurs in no cell list of
the supplied info ends the build with an empty adjacency set. -/
theorem unlisted_snapshot_isolated
    (computeTransitive : Bool) (snapshots : List VehicleSnapshot)
    (info : AntennaNeighborhood) (k : Nat) (s : VehicleSnapshot)
    (hnd : (snapshots.map (fun x => x.id)).Nodup)
    (hinfo : info.vehiclesPerAntenna ≠ [])
    (hs : snapshots[k]? = some s)
    (hunlisted : ∀ cell ∈ info.vehiclesPerAntenna, k ∉ cell.2) :
    (buildGraphFromSnapshots computeTransitive snapshots (some info)).adjacency.adj s.id = ∅ := by
  have hne : snapshots ≠ [] := by
    intro he
    rw [he] at hs
    exact Option.noConfusion hs
  rw [buildGraphFromSnapshots_antenna_adjacency hne hinfo]
  unfold antennaAdjacency
  refine Finset.eq_empty_iff_forall_not_mem.mpr fun y hmem => ?_
  rcases mem_insertLinkedPairs.mp hmem with h | ⟨p, hp, v1, v2, hv1, hv2, hl, hcase⟩
  · exact absurd h (Finset.not_mem_empty _)
  · rcases considered_both_listed hp with ⟨⟨c1, hc1, hk1⟩, ⟨c2, hc2, hk2⟩⟩
    rcases hcase with ⟨e1, e2⟩ | ⟨e1, e2⟩
    · have hki : k = p.1 := snapshot_id_inj hnd hs hv1 e1
      exact hunlisted c1 hc1 (hki ▸ hk1)
    · have hki : k = p.2 := snapshot_id_inj hnd hs hv2 e1
      exact hunlisted c2 hc2 (hki ▸ hk2)

/-- C9 witness: the second snapshot (filtered out, micro id −1) is co-located
with the first yet ends with no edges. -/
theorem unlisted_snapshot_isolated_witness :
    (∀ cell ∈ ([((0 : Int), [0])] : List (Int × List Nat)), (1 : Nat) ∉ cell.2) ∧
    (buildGraphFromSnapshots false [⟨1, 0, 0, 500, 0⟩, ⟨2, 0, 0, 500, -1⟩]
        (some ⟨[(0, [0])], []⟩)).adjacency.adj 2 = ∅ := by
  refine ⟨by decide, ?_⟩
  exact unlisted_snapshot_isolated false _ ⟨[(0, [0])], []⟩ 1 ⟨2, 0, 0, 500, -1⟩
    (by decide) (by decide) rfl (by decide)

/-! ### Vehicle motion (`vehicule.cpp`) -/

/-- Bundled edge properties of the boost road graph. -/
structure EdgeRec where
  src : Nat
  tgt : Nat
  roadType : String
  distance : ℝ

/-- A default-constructed `Edge` (the `backEdge` placeholder). -/
def defaultEdge : EdgeRec := ⟨0, 0, "", 0⟩

/-- The road graph: vertex list, vertex coordinates, directed edges. -/
structure RoadGraph where
  verts : List Nat
  lat : Nat → ℝ
  lon : Nat → ℝ
  edges : List EdgeRec

/-- Model of `boost::out_edges(v, graph)`. -/
def outEdges (g : RoadGraph) (v : Nat) : List EdgeRec :=
  g.edges.filter (fun e => e.src == v)

/-- Model of `Vehicule::isValidRoad`. -/
def isValidRoad (t : String) : Bool :=
  ["motorway", "trunk", "primary", "secondary", "tertiary",
   "motorway_link", "trunk_link", "primary_link", "secondary_link",
   "tertiary_link", "unclassified", "road"].contains t

/-- Model of `Vehicule::hasValidOutgoingEdge`. -/
def hasValidOutgoingEdge (g : RoadGraph) (v : Nat) : Bool :=
  (outEdges g v).any (fun e => isValidRoad e.roadType)

/-- The mutable state of a `Vehicule`. -/
structure VehState where
  currVertex : Nat
  start : Nat
  goal : Nat
  nextVertex : Nat
  previousVertex : Nat
  currEdge : EdgeRec
  edgeLength : ℝ
  positionOnEdge : ℝ
  speed : ℝ
  currentHeading : ℝ
  targetHeading : ℝ
  recentVertices : List Nat
  stuckCounter : Int

/-- Model of `Vehicule::DestReached`: swap `start` and `goal` and zero the edge length
(`positionOnEdge` is left untouched). -/
def destReached (s : VehState) : VehState :=
  { s with start := s.goal, goal := s.start, edgeLength := 0 }

/-- Model of `Vehicule::getPosition`: the current vertex position when no edge is
active, else linear interpolation along the current edge with the parameter
clamped into `[0, 1]`. -/
noncomputable def getPosition (g : RoadGraph) (s : VehState) : ℝ × ℝ :=
  if s.edgeLength ≤ 0 then (g.lat s.currVertex, g.lon s.currVertex)
  else
    let t0 := s.positionOnEdge / s.edgeLength
    let t1 := if t0 < 0 then 0 else t0
    let tparam := if 1 < t1 then 1 else t1
    (g.lat s.currEdge.src + tparam * (g.lat s.currEdge.tgt - g.lat s.currEdge.src),
     g.lon s.currEdge.src + tparam * (g.lon s.currEdge.tgt - g.lon s.currEdge.src))

/-- Model of `rand() % n`, consuming the head of the pseudo-random stream. -/
def drawRand (rng : List Nat) (n : Nat) : Nat × List Nat :=
  (rng.headD 0 % n, rng.tail)

/-- The common tail of the non-stuck branches of `pickNextEdge`: push the
departed vertex onto `recentVertices` (dropping the oldest past capacity 8),
apply the selected edge and set the stuck counter. -/
def applySelectedEdge (e : EdgeRec) (stuck : Int) (s : VehState) : VehState :=
  let recent1 := s.recentVertices ++ [s.currVertex]
  let recent2 := if 8 < recent1.length then recent1.tail else recent1
  { s with
    recentVertices := recent2
    currEdge := e
    previousVertex := s.currVertex
    nextVertex := e.tgt
    edgeLength := e.distance
    positionOnEdge := 0
    stuckCounter := stuck }

/-- Model of `Vehicule::pickNextEdge`: bucket the valid outgoing edges into fresh /
recently-visited / backtrack, pick uniformly from the best nonempty bucket
(the backtrack slot keeps the last matching edge), and otherwise re-goal after
more than 3 consecutive failures and restart from the swapped start. -/
def pickNextEdge (g : RoadGraph) (rng : List Nat) (s : VehState) : VehState × List Nat :=
  let usable := (outEdges g s.currVertex).filter (fun e => isValidRoad e.roadType)
  let validEdges := usable.filter (fun e => e.tgt ≠ s.previousVertex ∧ e.tgt ∉ s.recentVertices)
  let lessPreferred := usable.filter (fun e => e.tgt ≠ s.previousVertex ∧ e.tgt ∈ s.recentVertices)
  let backEdges := usable.filter (fun e => e.tgt = s.previousVertex)
  if validEdges.isEmpty then
    if lessPreferred.isEmpty then
      if backEdges.isEmpty then
        let stuck1 := s.stuckCounter + 1
        let next :=
          if 3 < stuck1 then
            let candidateGoals := g.verts.filter (fun v => hasValidOutgoingEdge g v)
            if candidateGoals.isEmpty then (s.goal, stuck1, rng)
            else
              let d := drawRand rng candidateGoals.length
              (candidateGoals.getD d.1 0, (0 : Int), d.2)
          else (s.goal, stuck1, rng)
        ({ s with
            goal := s.start
            start := next.1
            nextVertex := next.1
            edgeLength := 0
            previousVertex := s.currVertex
            recentVertices := []
            stuckCounter := next.2.1 }, next.2.2)
      else
        (applySelectedEdge (backEdges.getLast?.getD defaultEdge) (s.stuckCounter + 1) s, rng)
    else
      let d := drawRand rng lessPreferred.length
      (applySelectedEdge (lessPreferred.getD d.1 defaultEdge) (s.stuckCounter + 1) s, d.2)
  else
    let d := drawRand rng validEdges.length
    (applySelectedEdge (validEdges.getD d.1 defaultEdge) 0 s, d.2)

/-- The position advance `positionOnEdge += speed * deltaTime`. -/
def movedState (s : VehState) (deltaTime : ℝ) : VehState :=
  { s with positionOnEdge := s.positionOnEdge + s.speed * deltaTime }

/-- The movement vector `(dLat, dLon)` of the tick: position after the advance
minus position before it. -/
noncomputable def moveDelta (g : RoadGraph) (s : VehState) (deltaTime : ℝ) : ℝ × ℝ :=
  ((getPosition g (movedState s deltaTime)).1 - (getPosition g s).1,
   (getPosition g (movedState s deltaTime)).2 - (getPosition g s).2)

/-- The heading block of `Vehicule::update`: when the movement vector is
significant, aim at `atan2(dLon, dLat)` in degrees (corrected into `[0, 360)`
when negative), move 15% of the wrapped difference towards it and re-wrap. -/
noncomputable def headingStep (s : VehState) (dLat dLon : ℝ) : VehState :=
  if 1e-10 < |dLat| ∨ 1e-10 < |dLon| then
    let t0 := atan2 dLon dLat * 180 / Real.pi
    let target := if t0 < 0 then t0 + 360 else t0
    let diff0 := target - s.currentHeading
    let diff := if 180 < diff0 then diff0 - 360
      else if diff0 < -180 then diff0 + 360 else diff0
    let h0 := s.currentHeading + diff * 0.15
    let h := if h0 < 0 then h0 + 360 else if 360 ≤ h0 then h0 - 360 else h0
    { s with targetHeading := target, currentHeading := h }
  else s

/-- The `while (positionOnEdge >= edgeLength)` loop of `Vehicule::update`,
with explicit fuel standing for the (unbounded) number of iterations; `none`
means the loop did not finish within the given fuel. -/
noncomputable def advanceLoop (g : RoadGraph) (rng : List Nat) (fuel : Nat)
    (s : VehState) : Option (VehState × List Nat) :=
  match fuel with
  | 0 => none
  | fuel + 1 =>
    if s.edgeLength ≤ s.positionOnEdge then
      let overshoot := s.positionOnEdge - s.edgeLength
      let s1 := { s with previousVertex := s.currVertex, currVertex := s.nextVertex }
      if s1.currVertex = s1.goal then some (destReached s1, rng)
      else
        let pr := pickNextEdge g rng s1
        advanceLoop g pr.2 fuel { pr.1 with positionOnEdge := overshoot }
    else some (s, rng)

/-- Model of `Vehicule::update(deltaTime)`. -/
noncomputable def update (g : RoadGraph) (rng : List Nat) (fuel : Nat)
    (deltaTime : ℝ) (s : VehState) : Option (VehState × List Nat) :=
  if s.currVertex = s.goal then some (destReached s, rng)
  else
    let pr := if s.edgeLength ≤ 0 then pickNextEdge g rng s else (s, rng)
    let d := moveDelta g pr.1 deltaTime
    let s3 := headingStep (movedState pr.1 deltaTime) d.1 d.2
    advanceLoop g pr.2 fuel s3

/-! ### Position invariant lemmas (C4) -/

lemma pickNextEdge_speed (g : RoadGraph) (rng : List Nat) (s : VehState) :
    (pickNextEdge g rng s).1.speed = s.speed := by
  unfold pickNextEdge applySelectedEdge
  dsimp only
  split_ifs <;> rfl

lemma pickNextEdge_currentHeading (g : RoadGraph) (rng : List Nat) (s : VehState) :
    (pickNextEdge g rng s).1.currentHeading = s.currentHeading := by
  unfold pickNextEdge applySelectedEdge
  dsimp only
  split_ifs <;> rfl

/-- After `pickNextEdge` either a fresh edge is applied (`positionOnEdge = 0`)
or the vehicle is reset (`edgeLength = 0`, position untouched). -/
lemma pickNextEdge_pos_cases (g : RoadGraph) (rng : List Nat) (s : VehState) :
    (pickNextEdge g rng s).1.positionOnEdge = 0 ∨
    ((pickNextEdge g rng s).1.edgeLength = 0 ∧
     (pickNextEdge g rng s).1.positionOnEdge = s.positionOnEdge) := by
  unfold pickNextEdge applySelectedEdge
  dsimp only
  split_ifs <;> first
  | exact Or.inl rfl
  | exact Or.inr ⟨rfl, rfl⟩

lemma movedState_pos (s : VehState) (dt : ℝ) :
    (movedState s dt).positionOnEdge = s.positionOnEdge + s.speed * dt := rfl

lemma headingStep_positionOnEdge (s : VehState) (d1 d2 : ℝ) :
    (headingStep s d1 d2).positionOnEdge = s.positionOnEdge := by
  unfold headingStep
  split_ifs <;> rfl

lemma headingStep_edgeLength (s : VehState) (d1 d2 : ℝ) :
    (headingStep s d1 d2).edgeLength = s.edgeLength := by
  unfold headingStep
  split_ifs <;> rfl

lemma advanceLoop_inv (g : RoadGraph) :
    ∀ (fuel : Nat) (rng : List Nat) (s : VehState),
      0 ≤ s.positionOnEdge →
      ∀ out, advanceLoop g rng fuel s = some out →
      0 ≤ out.1.positionOnEdge ∧
      (out.1.edgeLength ≠ 0 → out.1.positionOnEdge ≤ out.1.edgeLength) := by
  intro fuel
  induction fuel with
  | zero =>
    intro rng s _ out hout
    exact Option.noConfusion hout
  | succ fuel ih =>
    intro rng s hpos out hout
    rw [advanceLoop] at hout
    by_cases hc : s.edgeLength ≤ s.positionOnEdge
    · rw [if_pos hc] at hout
      dsimp only at hout
      by_cases hg : s.nextVertex = s.goal
      · rw [if_pos hg] at hout
        cases Option.some_inj.mp hout
        refine ⟨hpos, fun hlen => absurd rfl hlen⟩
      · rw [if_neg hg] at hout
        exact ih _ _ (by simpa using sub_nonneg.mpr hc) out hout
    · rw [if_neg hc] at hout
      cases Option.some_inj.mp hout
      exact ⟨hpos, fun _ => le_of_lt (lt_of_not_le hc)⟩

/-- C4 (amended): with nonnegative speed and delta, after every completed
`update` call the position along the edge is nonnegative, and bounded by the
edge length whenever an edge is active (`edgeLength ≠ 0`); after a
goal-reached or rerouting reset (`edgeLength = 0`) the position keeps its
prior value until the next edge is picked. -/
theorem update_position_invariant
    (g : RoadGraph) (rng : List Nat) (fuel : Nat) (delta : ℝ) (s : VehState)
    (out : VehState × List Nat)
    (hpos : 0 ≤ s.positionOnEdge) (hspeed : 0 ≤ s.speed) (hdelta : 0 ≤ delta)
    (hu : update g rng fuel delta s = some out) :
    0 ≤ out.1.positionOnEdge ∧
    (out.1.edgeLength ≠ 0 → out.1.positionOnEdge ≤ out.1.edgeLength) := by
  unfold update at hu
  by_cases hgoal : s.currVertex = s.goal
  · rw [if_pos hgoal] at hu
    cases Option.some_inj.mp hu
    exact ⟨hpos, fun hlen => absurd rfl hlen⟩
  · rw [if_neg hgoal] at hu
    dsimp only at hu
    have hpos1 : 0 ≤ ((if s.edgeLength ≤ 0 then pickNextEdge g rng s
        else (s, rng)).1).positionOnEdge := by
      split_ifs with h
      · rcases pickNextEdge_pos_cases g rng s with h0 | ⟨_, he⟩
        · rw [h0]
        · rw [he]
          exact hpos
      · exact hpos
    have hspeed1 : 0 ≤ ((if s.edgeLength ≤ 0 then pickNextEdge g rng s
        else (s, rng)).1).speed := by
      split_ifs with h
      · rw [pickNextEdge_speed]
        exact hspeed
      · exact hspeed
    refine advanceLoop_inv g fuel _ _ ?_ out hu
    rw [headingStep_positionOnEdge, movedState_pos]
    exact add_nonneg hpos1 (mul_nonneg hspeed1 hdelta)

/-! ### Heading lemmas (C8) -/

lemma advanceLoop_currentHeading (g : RoadGraph) :
    ∀ (fuel : Nat) (rng : List Nat) (s : VehState) (out : VehState × List Nat),
      advanceLoop g rng fuel s = some out →
      out.1.currentHeading = s.currentHeading := by
  intro fuel
  induction fuel with
  | zero =>
    intro rng s out h
    exact Option.noConfusion h
  | succ fuel ih =>
    intro rng s out h
    rw [advanceLoop] at h
    by_cases hc : s.edgeLength ≤ s.positionOnEdge
    · rw [if_pos hc] at h
      dsimp only at h
      by_cases hg : s.nextVertex = s.goal
      · rw [if_pos hg] at h
        cases Option.some_inj.mp h
        rfl
      · rw [if_neg hg] at h
        rw [ih _ _ out h]
        exact pickNextEdge_currentHeading g rng _
    · rw [if_neg hc] at h
      cases Option.some_inj.mp h
      rfl

lemma atan2_deg_bounds (y x : ℝ) :
    -180 < atan2 y x * 180 / Real.pi ∧ atan2 y x * 180 / Real.pi ≤ 180 := by
  have hpi := Real.pi_pos
  have hmem := Complex.arg_mem_Ioc (⟨x, y⟩ : ℂ)
  have h1 : -Real.pi < atan2 y x := hmem.1
  have h2 : atan2 y x ≤ Real.pi := hmem.2
  constructor
  · rw [lt_div_iff₀ hpi]
    nlinarith
  · rw [div_le_iff₀ hpi]
    nlinarith

/-- Spec-side: wrap an angle into `[0, 360)` by a single correction. -/
noncomputable def wrap360 (a : ℝ) : ℝ :=
  if a < 0 then a + 360 else if 360 ≤ a then a - 360 else a

/-- Spec-side: normalise an angle difference into `[-180, 180]`. -/
noncomputable def wrapDiff (d : ℝ) : ℝ :=
  if 180 < d then d - 360 else if d < -180 then d + 360 else d

lemma headingStep_heading_mem {s : VehState} (d1 d2 : ℝ)
    (h0 : 0 ≤ s.currentHeading) (h1 : s.currentHeading < 360) :
    0 ≤ (headingStep s d1 d2).currentHeading ∧
    (headingStep s d1 d2).currentHeading < 360 := by
  unfold headingStep
  by_cases hmove : 1e-10 < |d1| ∨ 1e-10 < |d2|
  · rw [if_pos hmove]
    dsimp only
    obtain ⟨hA1, hA2⟩ := atan2_deg_bounds d2 d1
    split_ifs <;> constructor <;> linarith
  · rw [if_neg hmove]
    exact ⟨h0, h1⟩

lemma headingStep_heading_eq {s : VehState} {d1 d2 : ℝ}
    (hmove : 1e-10 < |d1| ∨ 1e-10 < |d2|) :
    (headingStep s d1 d2).currentHeading =
      wrap360 (s.currentHeading + 0.15 *
        wrapDiff (wrap360 (atan2 d2 d1 * 180 / Real.pi) - s.currentHeading)) := by
  obtain ⟨hA1, hA2⟩ := atan2_deg_bounds d2 d1
  have htarget : (if atan2 d2 d1 * 180 / Real.pi < 0 then atan2 d2 d1 * 180 / Real.pi + 360
      else atan2 d2 d1 * 180 / Real.pi) = wrap360 (atan2 d2 d1 * 180 / Real.pi) := by
    unfold wrap360
    by_cases hc : atan2 d2 d1 * 180 / Real.pi < 0
    · rw [if_pos hc, if_pos hc]
    · rw [if_neg hc, if_neg hc,
        if_neg (by linarith : ¬ (360 : ℝ) ≤ atan2 d2 d1 * 180 / Real.pi)]
  unfold headingStep
  rw [if_pos hmove]
  show wrap360 (s.currentHeading +
      wrapDiff ((if atan2 d2 d1 * 180 / Real.pi < 0 then atan2 d2 d1 * 180 / Real.pi + 360
        else atan2 d2 d1 * 180 / Real.pi) - s.currentHeading) * 0.15) = _
  rw [htarget, mul_comm (wrapDiff (wrap360 (atan2 d2 d1 * 180 / Real.pi) -
    s.currentHeading)) (0.15 : ℝ)]

lemma headingStep_heading_of_not_move {s : VehState} {d1 d2 : ℝ}
    (hmove : ¬ (1e-10 < |d1| ∨ 1e-10 < |d2|)) :
    (headingStep s d1 d2).currentHeading = s.currentHeading := by
  unfold headingStep
  rw [if_neg hmove]

lemma movedState_currentHeading (s : VehState) (dt : ℝ) :
    (movedState s dt).currentHeading = s.currentHeading := rfl

/-- The movement vector a call to `update` computes, after the optional
initial `pickNextEdge` when no edge is active. -/
noncomputable def tickMoveDelta (g : RoadGraph) (rng : List Nat) (delta : ℝ)
    (s : VehState) : ℝ × ℝ :=
  moveDelta g ((if s.edgeLength ≤ 0 then pickNextEdge g rng s else (s, rng)).1) delta

/-- C8: a heading in `[0, 360)` stays in `[0, 360)` across every completed
`update`; with a significant movement vector the new heading is the old one
plus 0.15 times the difference to the target bearing `atan2(dLon, dLat)` in
degrees (wrapped into `[0, 360)`), the difference normalised into
`[-180, 180]` and the result re-wrapped into `[0, 360)`; otherwise the
heading is unchanged. -/
theorem update_heading_spec
    (g : RoadGraph) (rng : List Nat) (fuel : Nat) (delta : ℝ) (s : VehState)
    (out : VehState × List Nat)
    (h0 : 0 ≤ s.currentHeading) (h1 : s.currentHeading < 360)
    (hu : update g rng fuel delta s = some out) :
    (0 ≤ out.1.currentHeading ∧ out.1.currentHeading < 360) ∧
    (s.currVertex = s.goal → out.1.currentHeading = s.currentHeading) ∧
    (s.currVertex ≠ s.goal →
      ((1e-10 < |(tickMoveDelta g rng delta s).1| ∨
        1e-10 < |(tickMoveDelta g rng delta s).2|) →
        out.1.currentHeading = wrap360 (s.currentHeading + 0.15 *
          wrapDiff (wrap360 (atan2 (tickMoveDelta g rng delta s).2
            (tickMoveDelta g rng delta s).1 * 180 / Real.pi) -
            s.currentHeading))) ∧
      (¬ (1e-10 < |(tickMoveDelta g rng delta s).1| ∨
          1e-10 < |(tickMoveDelta g rng delta s).2|) →
        out.1.currentHeading = s.currentHeading)) := by
  unfold update at hu
  by_cases hgoal : s.currVertex = s.goal
  · rw [if_pos hgoal] at hu
    cases Option.some_inj.mp hu
    exact ⟨⟨h0, h1⟩, fun _ => rfl, fun hne => absurd hgoal hne⟩
  · rw [if_neg hgoal] at hu
    dsimp only at hu
    have hh := advanceLoop_currentHeading g fuel _ _ out hu
    have hs1h : ((if s.edgeLength ≤ 0 then pickNextEdge g rng s
        else (s, rng)).1).currentHeading = s.currentHeading := by
      split_ifs with h
      · exact pickNextEdge_currentHeading g rng s
      · rfl
    have hbase : (movedState ((if s.edgeLength ≤ 0 then pickNextEdge g rng s
        else (s, rng)).1) delta).currentHeading = s.currentHeading := by
      rw [movedState_currentHeading, hs1h]
    refine ⟨?_, fun he => absurd he hgoal, fun _ => ⟨?_, ?_⟩⟩
    · rw [hh]
      exact headingStep_heading_mem _ _ (hbase ▸ h0) (by rw [hbase]; exact h1)
    · intro hmove
      unfold tickMoveDelta at hmove ⊢
      rw [hh, headingStep_heading_eq hmove, hbase]
    · intro hnm
      unfold tickMoveDelta at hnm
      rw [hh, headingStep_heading_of_not_move hnm, hbase]

/-! ### A fully evaluated concrete update run -/

lemma atan2_zero_one : atan2 0 1 = 0 := by
  unfold atan2
  have h1 : (⟨1, 0⟩ : ℂ) = 1 := by
    apply Complex.ext <;> simp
  rw [h1, Complex.arg_one]

/-- One concrete tick: a vehicle 0 m along a 10 m edge towards its goal,
advanced by 15 m (speed 1, delta 15): the goal is reached mid-loop, the
edge length is zeroed and the position keeps the value 15. -/
lemma cex_update_eval :
    update ⟨[0, 1], (fun v => if v = 1 then 1 else 0), (fun _ => 0),
        [⟨0, 1, "primary", 10⟩]⟩ [] 1 15
      ⟨0, 0, 1, 1, 0, ⟨0, 1, "primary", 10⟩, 10, 0, 1, 0, 0, [], 0⟩ =
    some (⟨1, 1, 0, 1, 0, ⟨0, 1, "primary", 10⟩, 0, 15, 1, 0, 0, [], 0⟩, []) := by
  have hmove : moveDelta ⟨[0, 1], (fun v => if v = 1 then 1 else 0), (fun _ => 0),
      [⟨0, 1, "primary", 10⟩]⟩
      ⟨0, 0, 1, 1, 0, ⟨0, 1, "primary", 10⟩, 10, 0, 1, 0, 0, [], 0⟩ 15 = (1, 0) := by
    unfold moveDelta movedState getPosition
    norm_num
  have hstep : headingStep (movedState
      ⟨0, 0, 1, 1, 0, ⟨0, 1, "primary", 10⟩, 10, 0, 1, 0, 0, [], 0⟩ 15) 1 0 =
      ⟨0, 0, 1, 1, 0, ⟨0, 1, "primary", 10⟩, 10, 15, 1, 0, 0, [], 0⟩ := by
    unfold movedState headingStep
    rw [if_pos (Or.inl (by norm_num : (1e-10 : ℝ) < |(1 : ℝ)|))]
    dsimp only
    rw [atan2_zero_one]
    norm_num
  unfold update
  rw [if_neg (by decide : ¬ ((0 : Nat) = 1))]
  dsimp only
  rw [if_neg (by norm_num : ¬ ((10 : ℝ) ≤ 0))]
  dsimp only
  rw [hmove]
  dsimp only
  rw [hstep, advanceLoop]
  rw [if_pos (by norm_num : ((⟨0, 0, 1, 1, 0, ⟨0, 1, "primary", 10⟩, 10, 15, 1, 0, 0, [], 0⟩
    : VehState)).edgeLength ≤ ((⟨0, 0, 1, 1, 0, ⟨0, 1, "primary", 10⟩, 10, 15, 1, 0, 0, [], 0⟩
    : VehState)).positionOnEdge)]
  dsimp only
  rw [if_pos (by decide : ((1 : Nat) = 1))]
  unfold destReached
  norm_num

/-- C4 counterexample: reaching the goal zeroes `edgeLength` but leaves
`positionOnEdge` at 15, so `0 ≤ position_on_edge ≤ edge_length` fails right
after the update returns. -/
theorem update_position_invariant_counterexample :
    (update ⟨[0, 1], (fun v => if v = 1 then 1 else 0), (fun _ => 0),
        [⟨0, 1, "primary", 10⟩]⟩ [] 1 15
      ⟨0, 0, 1, 1, 0, ⟨0, 1, "primary", 10⟩, 10, 0, 1, 0, 0, [], 0⟩).map
      (fun r => (r.1.positionOnEdge, r.1.edgeLength)) = some ((15 : ℝ), (0 : ℝ)) ∧
    ¬ ((15 : ℝ) ≤ (0 : ℝ)) := by
  constructor
  · rw [cex_update_eval]
    rfl
  · norm_num

/-- C4 witness: the amended invariant instantiated on the concrete run. -/
theorem update_position_invariant_witness :
    (0 : ℝ) ≤ 0 ∧ (0 : ℝ) ≤ 1 ∧ (0 : ℝ) ≤ 15 ∧
    (0 ≤ ((⟨1, 1, 0, 1, 0, ⟨0, 1, "primary", 10⟩, 0, 15, 1, 0, 0, [], 0⟩ :
        VehState)).positionOnEdge ∧
     (((⟨1, 1, 0, 1, 0, ⟨0, 1, "primary", 10⟩, 0, 15, 1, 0, 0, [], 0⟩ :
        VehState)).edgeLength ≠ 0 →
      ((⟨1, 1, 0, 1, 0, ⟨0, 1, "primary", 10⟩, 0, 15, 1, 0, 0, [], 0⟩ :
        VehState)).positionOnEdge ≤
      ((⟨1, 1, 0, 1, 0, ⟨0, 1, "primary", 10⟩, 0, 15, 1, 0, 0, [], 0⟩ :
        VehState)).edgeLength)) := by
  refine ⟨le_refl 0, by norm_num, by norm_num, ?_⟩
  exact update_position_invariant
    ⟨[0, 1], (fun v => if v = 1 then 1 else 0), (fun _ => 0), [⟨0, 1, "primary", 10⟩]⟩
    [] 1 15 ⟨0, 0, 1, 1, 0, ⟨0, 1, "primary", 10⟩, 10, 0, 1, 0, 0, [], 0⟩
    (⟨1, 1, 0, 1, 0, ⟨0, 1, "primary", 10⟩, 0, 15, 1, 0, 0, [], 0⟩, [])
    (le_refl 0) (by norm_num) (by norm_num) cex_update_eval

/-- C8 witness: the heading bound instantiated on the concrete run (northward
movement, heading stays 0). -/
theorem update_heading_spec_witness :
    (0 : ℝ) ≤ 0 ∧ (0 : ℝ) < 360 ∧
    (0 ≤ ((⟨1, 1, 0, 1, 0, ⟨0, 1, "primary", 10⟩, 0, 15, 1, 0, 0, [], 0⟩ :
        VehState)).currentHeading ∧
     ((⟨1, 1, 0, 1, 0, ⟨0, 1, "primary", 10⟩, 0, 15, 1, 0, 0, [], 0⟩ :
        VehState)).currentHeading < 360) := by
  refine ⟨le_refl 0, by norm_num, ?_⟩
  exact (update_heading_spec
    ⟨[0, 1], (fun v => if v = 1 then 1 else 0), (fun _ => 0), [⟨0, 1, "primary", 10⟩]⟩
    [] 1 15 ⟨0, 0, 1, 1, 0, ⟨0, 1, "primary", 10⟩, 10, 0, 1, 0, 0, [], 0⟩
    (⟨1, 1, 0, 1, 0, ⟨0, 1, "primary", 10⟩, 0, 15, 1, 0, 0, [], 0⟩, [])
    (le_refl 0) (by norm_num) cex_update_eval).1

/-! ### Simulation driver (`simulator.cpp`) -/

/-- Model of `Simulator::onTick`: the delta handed to every vehicle update is the
raw restarted elapsed time in seconds times the speed multiplier. -/
noncomputable def onTickDelta (elapsedMs : Nat) (speedMultiplier : ℝ) : ℝ :=
  (elapsedMs : ℝ) / 1000 * speedMultiplier

/-- The tick delta the specification claims: `min(T_actual, 2·T)` seconds,
times the speed multiplier. -/
noncomputable def claimedTickDelta (elapsedMs tickIntervalMs : Nat)
    (speedMultiplier : ℝ) : ℝ :=
  min ((elapsedMs : ℝ) / 1000) (2 * (tickIntervalMs : ℝ) / 1000) * speedMultiplier

/-- Parameter flow of `InterferenceGraph::initializeSpatialGrid`: the
`(numMacro, numMicro)` pair actually handed to `SpatialGrid::initialize`, or
`none` when the guards (`!m_useSpatialGrid || vehicles.size() < 20`, grid
already initialised) make the call a no-op.  A zero count is replaced by a
default scaled by the vehicle count. -/
def initializeSpatialGridParams (useSpatialGrid : Bool) (numVehicles : Nat)
    (gridInitialized : Bool) (numMacro numMicro : Int) : Option (Int × Int) :=
  if useSpatialGrid = false ∨ numVehicles < 20 then none
  else if gridInitialized = true then none
  else
    let m := if numMacro = 0 then
        (if 2000 < numVehicles then 30 else if 500 < numVehicles then 20 else 10)
      else numMacro
    let p := if numMicro = 0 then
        (if 2000 < numVehicles then 20 else if 500 < numVehicles then 15 else 10)
      else numMicro
    some (m, p)

/-- Parameter flow of `InterferenceGraph::reinitializeSpatialGrid`: apart from
the guard, the requested counts are forwarded unchanged. -/
def reinitializeSpatialGridParams (useSpatialGrid : Bool) (numVehicles : Nat)
    (numMacro numMicro : Int) : Option (Int × Int) :=
  if useSpatialGrid = false ∨ numVehicles < 20 then none
  else some (numMacro, numMicro)

/-- Modelled from the spec: `SpatialGrid::initialize` (its translation unit
`spatial_grid.cpp` is not among the repository sources; only `spatial_grid.h`
is) consumes the requested macro and micro counts as given — §4.2: `reconfigure
(num_macro, num_micro_per_macro)` discards all cells, reruns k-means with the
given macro count and rebuilds the given number of micros per macro. -/
def spatialGridInitializeCounts (numMacro numMicro : Int) : Int × Int :=
  (numMacro, numMicro)

/-- Model of `Simulator::placeAntennas` (the `reconfigure_cells` command): no-op with no
vehicles, otherwise reinitialize the grid with the requested counts; the result
is the `(macro, micro)` layout the spatial grid is rebuilt with. -/
def placeAntennasParams (useSpatialGrid : Bool) (numVehicles : Nat)
    (numLarge numSmall : Int) : Option (Int × Int) :=
  if numVehicles = 0 then none
  else
    (reinitializeSpatialGridParams useSpatialGrid numVehicles numLarge numSmall).map
      (fun q => spatialGridInitializeCounts q.1 q.2)

/-! ### C5: the tick delta is not clamped -/

/-- C5 counterexample: a 200 ms delay at the default 50 ms interval with
multiplier 1 yields a delta of 0.2 s, not the claimed `min(0.2, 0.1) * 1`. -/
theorem onTickDelta_not_clamped :
    onTickDelta 200 1 ≠ claimedTickDelta 200 50 1 ∧ onTickDelta 200 1 = 1 / 5 := by
  constructor
  · unfold onTickDelta claimedTickDelta
    rw [min_eq_right (by norm_num)]
    norm_num
  · unfold onTickDelta
    norm_num

/-- C5 amended: the tick delta is the raw elapsed time in seconds times the
speed multiplier, with no 2-interval clamp: it agrees with the claimed
min-formula exactly while the elapsed time stays within twice the interval,
and strictly exceeds it beyond that (for a positive multiplier). -/
theorem onTickDelta_unclamped (elapsedMs tickIntervalMs : Nat) (m : ℝ) :
    (elapsedMs ≤ 2 * tickIntervalMs →
      onTickDelta elapsedMs m = claimedTickDelta elapsedMs tickIntervalMs m) ∧
    (2 * tickIntervalMs < elapsedMs → 0 < m →
      claimedTickDelta elapsedMs tickIntervalMs m < onTickDelta elapsedMs m) := by
  constructor
  · intro h
    have hc : (elapsedMs : ℝ) ≤ 2 * (tickIntervalMs : ℝ) := by exact_mod_cast h
    unfold onTickDelta claimedTickDelta
    rw [min_eq_left (by linarith)]
  · intro h hm
    have hc : 2 * (tickIntervalMs : ℝ) < (elapsedMs : ℝ) := by exact_mod_cast h
    unfold onTickDelta claimedTickDelta
    rw [min_eq_right (by linarith)]
    have hdiv : 2 * (tickIntervalMs : ℝ) / 1000 < (elapsedMs : ℝ) / 1000 := by linarith
    exact mul_lt_mul_of_pos_right hdiv hm

/-- C5 witness: a timely tick (60 ms at interval 50) matches the claimed
formula; a delayed one (200 ms) exceeds it. -/
theorem onTickDelta_unclamped_witness :
    onTickDelta 60 1 = claimedTickDelta 60 50 1 ∧
    claimedTickDelta 200 50 1 < onTickDelta 200 1 :=
  ⟨(onTickDelta_unclamped 60 50 1).1 (by norm_num),
   (onTickDelta_unclamped 200 50 1).2 (by norm_num) (by norm_num)⟩

/-! ### C6: default substitution happens only at first-time initialisation -/

/-- C6 counterexample: reconfiguring (`placeAntennas`) with M = P = 0 and 100
vehicles rebuilds the grid with (0, 0), not the claimed default (10, 10). -/
theorem placeAntennas_no_default_substitution :
    placeAntennasParams true 100 0 0 = some (0, 0) ∧
    placeAntennasParams true 100 0 0 ≠ some (10, 10) := by decide

/-- C6 amended: the vehicle-count-scaled defaults (macro 10/20/30 and micro
10/15/20 at the 500 and 2000 thresholds) are substituted for zero counts by
first-time initialisation (`initializeSpatialGrid`) only; the reconfigure path
(`placeAntennas` / `reinitializeSpatialGrid`) forwards the requested counts
unchanged. -/
theorem spatial_grid_default_substitution (n : Nat) (hn : 20 ≤ n) :
    (initializeSpatialGridParams true n false 0 0 =
      some ((if n ≤ 500 then 10 else if n ≤ 2000 then 20 else 30),
            (if n ≤ 500 then 10 else if n ≤ 2000 then 15 else 20))) ∧
    (∀ numLarge numSmall : Int,
      placeAntennasParams true n numLarge numSmall = some (numLarge, numSmall)) := by
  constructor
  · unfold initializeSpatialGridParams
    rw [if_neg (by simp; omega), if_neg (by simp)]
    simp only [if_pos rfl, Option.some.injEq, Prod.mk.injEq, if_true]
    constructor
    · split_ifs <;> omega
    · split_ifs <;> omega
  · intro numLarge numSmall
    unfold placeAntennasParams reinitializeSpatialGridParams spatialGridInitializeCounts
    rw [if_neg (by omega), if_neg (by simp; omega)]
    rfl

/-- C6 witness: at 100 vehicles first-time initialisation substitutes
(10, 10) for (0, 0), while the reconfigure path keeps (0, 0). -/
theorem spatial_grid_default_substitution_witness :
    initializeSpatialGridParams true 100 false 0 0 = some (10, 10) ∧
    placeAntennasParams true 100 0 0 = some (0, 0) := by
  constructor
  · have h := (spatial_grid_default_substitution 100 (by norm_num)).1
    simpa using h
  · exact (spatial_grid_default_substitution 100 (by norm_num)).2 0 0

end V2V
